import Mathlib

/-!
Verification development for the Mitigating Circumstances extraction engine
(src/mitcircs.py).  Python strings are modelled as lists of characters,
pandas cell values as `Option Str` (with `none` standing for an absent /
null / NaN cell), and fallible code paths as `Except`.  Every definition is
translated from the source file; definitions written from the prose of the
design document (for comparison against the source) say so in their doc
comment.
-/

set_option maxRecDepth 100000
set_option maxHeartbeats 1000000

/-- A Python string, modelled as its list of characters. -/
abbrev Str := List Char

/-- Conversion from a Lean string literal to the character-list model. -/
def str (s : String) : Str := s.data

/-- A pandas cell: `none` models an absent / null / NaN value, `some s` a
string value. -/
abbrev Cell := Option Str

/-- Python `str()` applied to a cell value: a pandas NaN renders as the
four characters of the word nan (lower case); a string renders as itself. -/
def cellToStr (c : Cell) : Str :=
  match c with
  | none => str "nan"
  | some s => s

/-- Python `str.strip()`: remove leading and trailing whitespace. -/
def pyStrip (s : Str) : Str :=
  ((s.dropWhile Char.isWhitespace).reverse.dropWhile Char.isWhitespace).reverse

/-- Python `str.lower()` (ASCII case folding, which is all the source needs
for its comparison against the text nan). -/
def pyLower (s : Str) : Str := s.map Char.toLower

/-- Python `needle in hay` for strings: substring containment. -/
def isSubstrOf (needle hay : Str) : Bool :=
  match hay with
  | [] => needle.isEmpty
  | _ :: t => needle.isPrefixOf hay || isSubstrOf needle t

/-- A single-quote character, used to spell out the user-facing error
messages of the source verbatim. -/
def sglq : Str := [Char.ofNat 39]

/-- mitcircs.py line 149, `string_reformat_nan`: if the input cell is
absent/NaN, the empty string, or the text nan in any letter case, return
the fallback (`empty_string`, whose Python default is the text None given);
otherwise return the input unchanged.  The Python default argument is made
explicit here; call sites pass the value the source uses. -/
def string_reformat_nan (cell_in : Cell) (empty_string : Str) : Str :=
  match cell_in with
  | none => empty_string
  | some s => if s = [] ∨ pyLower s = str "nan" then empty_string else s

/-- mitcircs.py line 26: required minimum of filled-in response cells. -/
def MINIMUM_REQUIRED_RESPONSES : Nat := 4

/-- mitcircs.py line 628, `minimum_responses_provided`: clamp the minimum to
the number of cells, count the non-NaN cells, and require at least the
(clamped) minimum.  The warning print on the clamp branch is an I/O side
effect with no bearing on the returned value and is not modelled. -/
def minimum_responses_provided (cells : List Cell) (minimum : Nat) : Bool :=
  let N := cells.length
  let m := if minimum > N then N else minimum
  let omitted := (cells.filter fun c => c.isNone).length
  let provided := max 0 (N - omitted)
  decide (provided ≥ m)

/-!
## Regular-expression embedding

`detect_return_unitcode` (mitcircs.py line 440) compiles a triple-quoted
pattern containing spaces, newlines and `#`-comments, but does NOT pass
`re.VERBOSE`.  Without that flag every space, newline and comment character
in the pattern is a literal.  The `RE` type below is a small regex AST
sufficient to represent that pattern exactly; `matchEnds` enumerates the
candidate match end-positions in Python's backtracking order (greedy
repetition first), and `reSearch` performs `re.search`: leftmost starting
position, first end-position in backtracking order, returning group 0.
-/

/-- Regex AST: literal text, the `^` start-of-string anchor (no MULTILINE
flag is set in the source), a character class with a `{lo,hi}` repetition
count, and concatenation. -/
inductive RE where
  | lit : Str → RE
  | anchorBegin : RE
  | cls : (Char → Bool) → Nat → Nat → RE
  | seq : RE → RE → RE

/-- End positions for a greedy character-class repetition `{lo,hi}` starting
at position `i`, largest first (Python's backtracking order). -/
def clsEnds (p : Char → Bool) (lo hi : Nat) (s : Str) (i : Nat) : List Nat :=
  ((List.range (hi + 1 - lo)).map fun d => hi - d).filterMap fun k =>
    let seg := (s.drop i).take k
    if seg.length = k ∧ seg.all p = true then some (i + k) else none

/-- All end positions of a match of `r` in `s` starting at absolute position
`i`, in Python's backtracking priority order. -/
def matchEnds : RE → Str → Nat → List Nat
  | .lit l, s, i => if l.isPrefixOf (s.drop i) then [i + l.length] else []
  | .anchorBegin, _, i => if i = 0 then [i] else []
  | .cls p lo hi, s, i => clsEnds p lo hi s i
  | .seq a b, s, i => (matchEnds a s i).flatMap fun m => matchEnds b s m

/-- Scan candidate starting positions left to right; at the first position
with a match, return group 0 (the text between the start and the
highest-priority end position). -/
def reSearchAux (r : RE) (s : Str) : List Nat → Option Str
  | [] => none
  | i :: rest =>
    match matchEnds r s i with
    | [] => reSearchAux r s rest
    | j :: _ => some ((s.drop i).take (j - i))

/-- Python `re.search`: leftmost match of `r` in `s`, returning group 0. -/
def reSearch (r : RE) (s : Str) : Option Str :=
  reSearchAux r s (List.range (s.length + 1))

/-- `[A-Z]`. -/
def upperClass (c : Char) : Bool := decide ('A' ≤ c ∧ c ≤ 'Z')

/-- `[0-9]`. -/
def digitClass (c : Char) : Bool := decide ('0' ≤ c ∧ c ≤ '9')

/-- The literal pattern text before the `^` anchor: the newline and four
spaces of indentation that open the triple-quoted pattern string. -/
def unitcode_lit0 : Str := str "\n    "

/-- The literal pattern text between `{1,5}` and `[0-9]`: trailing spaces,
the first `#` comment, the newline and the next indentation. -/
def unitcode_lit1 : Str :=
  str "    # Starts with between 1 and 5 uppercase letters\n    "

/-- The literal pattern text after `{2,6}`: trailing spaces, the second
`#` comment, the newline and the closing indentation. -/
def unitcode_lit2 : Str :=
  str "     # Immediately followed by between 2 and 6 digits\n    "

/-- The pattern of mitcircs.py line 442 exactly as `re.compile` sees it:
no `re.VERBOSE` flag, so all whitespace and both comments are literals and
the `^` anchor sits after five mandatory literal characters. -/
def unitcode_regex : RE :=
  .seq (.lit unitcode_lit0)
    (.seq .anchorBegin
      (.seq (.cls upperClass 1 5)
        (.seq (.lit unitcode_lit1)
          (.seq (.cls digitClass 2 6) (.lit unitcode_lit2)))))

/-- The same pattern under the `re.VERBOSE` reading that the source's inline
comments describe (and the design document specifies): one to five
uppercase letters then two to six digits, anchored at the start. -/
def unitcode_regex_verbose : RE :=
  .seq .anchorBegin (.seq (.cls upperClass 1 5) (.cls digitClass 2 6))

/-- mitcircs.py line 440, `detect_return_unitcode`: strip the input, search
it with the compiled pattern, return group 0 on a match and the first nine
characters of the stripped input otherwise. -/
def detect_return_unitcode (s : Str) : Str :=
  match reSearch unitcode_regex (pyStrip s) with
  | some m => m
  | none => (pyStrip s).take 9

/-!
## Column-block locator (mitcircs.py lines 470-522)
-/

/-- Decimal rendering of a block number, as Python's `str(number)`. -/
def natStr (n : Nat) : Str := (Nat.repr n).data

/-- The underscore separator appended to a block number when selecting the
block's columns (`f"{response}_"`). -/
def usep : Str := str "_"

/-- mitcircs.py line 470, `unique_response_locations`: for each candidate
block number, collect (in column order) the stored indices of the columns
whose name starts with that number followed by an underscore; register the
block only when the collection is nonempty.  `response_columns` is the
name-to-index dict built by `locate_response_columns`, modelled as an
association list in insertion order. -/
def unique_response_locations (response_columns : List (Str × Nat))
    (response_numbers : List Str) : List (Str × List Nat) :=
  response_numbers.filterMap fun response =>
    let target_cols := response_columns.filter fun c =>
      (response ++ usep).isPrefixOf c.1
    let indices := target_cols.map fun c => c.2
    if indices = [] then none else some (response, indices)

/-- mitcircs.py line 495, `locate_response_columns`: take the column names
beginning with the decimal text of a number in `[1, response_max)`, pair
each with its position (pandas `get_indexer` against a uniquely-named
column index, hence the positional index), store them in a dict in column
order, and group them per block with `unique_response_locations`.  Faithful
for tables whose column names are distinct (pandas raises on a duplicate
column index; pandas also renames duplicate columns on file read, so the
engine only ever sees distinct names). -/
def locate_response_columns (colnames : List Str) (response_max : Nat) :
    List (Str × List Nat) :=
  let numbers := (List.range' 1 (response_max - 1)).map natStr
  let targets := colnames.enum.filter fun p =>
    numbers.any fun n => n.isPrefixOf p.2
  let columns := targets.map fun p => (p.2, p.1)
  unique_response_locations columns numbers

/-!
## Header-driven field resolver (mitcircs.py lines 590-610)
-/

/-- mitcircs.py line 590, `string_parse_header`: render the header row's
cells as strings, take the positions whose header text contains the search
string, fetch the current row's values at exactly those positions, drop the
NaN ones, and normalize the first remaining value; if nothing remains the
`IndexError` branch returns an ellipsis placeholder.  (The positions come
from the header, which in the program has the same width as every data row,
so the positional fetch never goes out of range; out-of-range positions are
skipped here.) -/
def string_parse_header (row header : List Cell) (searchstring : Str) : Str :=
  let strings := header.map cellToStr
  let indices := (List.range strings.length).filter fun i =>
    isSubstrOf searchstring (strings.getD i [])
  let years := indices.filterMap fun i => row.get? i
  let kept := years.filter fun c => c.isSome
  match kept.head? with
  | some c => string_reformat_nan (some (cellToStr c)) (str "None given")
  | none => str "..."

/-- Whether position `i` of the header row carries the marker substring;
the predicate `string_parse_header` filters positions with, phrased on the
raw header cells. -/
def headerMarked (header : List Cell) (searchstring : Str) (i : Nat) : Bool :=
  isSubstrOf searchstring (cellToStr (header.getD i none))

/-- The claim's reading of the header resolver, written from the design
document's words for comparison with the source: discard the missing AND
the empty matches, return the first non-empty remaining value normalized,
or the ellipsis placeholder when no match survives. -/
def string_parse_header_claimed (row header : List Cell)
    (searchstring : Str) : Str :=
  let strings := header.map cellToStr
  let indices := (List.range strings.length).filter fun i =>
    isSubstrOf searchstring (strings.getD i [])
  let values := indices.filterMap fun i => row.get? i
  let survivors := (values.filterMap id).filter fun s => !s.isEmpty
  match survivors.head? with
  | some v => string_reformat_nan (some v) (str "None given")
  | none => str "..."

/-- mitcircs.py line 607, `string_parse_division`: placeholder when the
first cell of the block is falsy (the empty string) or NaN, otherwise the
cell's text.  (The source indexes `row.iloc[0]`; registered blocks are
never empty, so the empty-list arm is unreachable in the program.) -/
def string_parse_division (cells : List Cell) : Str :=
  match cells.head? with
  | none => str "None provided"
  | some none => str "None provided"
  | some (some s) => if s = [] then str "None provided" else s

/-!
## Junk-row removal (mitcircs.py lines 262-287)
-/

/-- One step of the `row_containing` scan: the list comprehension
`[True for value in values if string in value]` evaluates `string in value`
for every cell, so a row holding any non-string value (a NaN float) raises
`TypeError` and is skipped whole by the bare `except`; otherwise the row
counts as containing the string when any cell does. -/
def row_match (s : Str) (row : List Cell) : Bool :=
  if row.any fun c => c.isNone then false
  else row.any fun c => isSubstrOf s (c.getD [])

/-- The `for index, row in dataframe.iterrows()` loop of `row_containing`,
carrying the `location` variable: a later match overwrites an earlier one. -/
def row_containing_aux (s : Str) :
    List (Nat × List Cell) → Option Nat → Option Nat
  | [], loc => loc
  | p :: rest, loc =>
    row_containing_aux s rest (if row_match s p.2 then some p.1 else loc)

/-- mitcircs.py line 262, `row_containing`: index of the last row containing
the string, or `None`.  The dataframe here has a fresh `RangeIndex` (it is
scanned straight after reading the file), so the row label equals the
positional index. -/
def row_containing (rows : List (List Cell)) (s : Str) : Option Nat :=
  row_containing_aux s rows.enum none

/-- mitcircs.py line 280, `drop_row_by_string`: `if not index` is true both
for `None` and for the integer 0, so a match found at row 0 is treated like
no match at all; any other match index is dropped and the index reset. -/
def drop_row_by_string (rows : List (List Cell)) (s : Str) : List (List Cell) :=
  match row_containing rows s with
  | none => rows
  | some 0 => rows
  | some (k + 1) => rows.eraseIdx (k + 1)

/-!
## Column-name constants (mitcircs.py lines 40-135)
-/

/-- Suffix of a block's Division column. -/
def COLNAME_SUFFIX_DIVISION : Str := str "_1"

/-- Suffix of a block's Programme column. -/
def COLNAME_SUFFIX_PROGRAMME : Str := str "_2"

/-- Suffix of a block's course-year column. -/
def COLNAME_SUFFIX_COURSEYEAR : Str := str "_3"

/-- Suffix of a block's unit-and-assessment text column. -/
def COLNAME_SUFFIX_UNITASSESSMENT : Str := str "_4"

/-- Suffix of a block's other-information column. -/
def COLNAME_SUFFIX_OTHERINFORMATION : Str := str "_Q37"

/-- Suffix of a block's resubmission-flag column. -/
def COLNAME_SUFFIX_RESUBMISSION : Str := str "_Q165"

/-- Suffix of a block's first-attempt resubmission-deadline column. -/
def COLNAME_SUFFIX_RESUB_FIRST : Str := str "_1_TEXT"

/-- Suffix of a block's second-attempt resubmission-deadline column. -/
def COLNAME_SUFFIX_RESUB_SECOND : Str := str "_3_TEXT"

/-- Suffix of a block's submission-status column. -/
def COLNAME_SUFFIX_SUBSTATUS : Str := str "_Q163"

/-- mitcircs.py line 64, `RESPONSE_COLUMN_INDICES`: the fixed role-to-offset
table shared by every response block. -/
def RESPONSE_COLUMN_INDICES : List (Str × Nat) :=
  [(COLNAME_SUFFIX_DIVISION, 0), (COLNAME_SUFFIX_PROGRAMME, 1),
   (COLNAME_SUFFIX_COURSEYEAR, 2), (COLNAME_SUFFIX_UNITASSESSMENT, 3),
   (COLNAME_SUFFIX_OTHERINFORMATION, 4), (COLNAME_SUFFIX_RESUBMISSION, 5),
   (COLNAME_SUFFIX_RESUB_FIRST, 6), (COLNAME_SUFFIX_RESUB_SECOND, 7),
   (COLNAME_SUFFIX_SUBSTATUS, 8)]

/-- Offset lookup in the role table.  Every lookup that the source performs
uses one of the nine keys above, so the default of the `getD` is never
taken. -/
def respIdx (suffix : Str) : Nat :=
  (RESPONSE_COLUMN_INDICES.lookup suffix).getD 0

/-- Name of the student-name column (and, by the source's note on the
duplicated name, of the supervisor-name column the header scan resolves). -/
def COLNAME_PREFIX_STUDENTNAME : Str := str "Q1"

/-- Name of the student-ID column. -/
def COLNAME_PREFIX_STUDENTID : Str := str "Q4"

/-- Name of the email-address column. -/
def COLNAME_PREFIX_EMAILADDRESS : Str := str "Q3"

/-- Name of the submission-timestamp column. -/
def COLNAME_PREFIX_DATESUBMITTED : Str := str "RecordedDate"

/-- Name of the postgraduate-or-research flag column. -/
def COLNAME_PREFIX_ISPOSTGRADORRES : Str := str "Q150"

/-- Name of the supervisor-contacted column. -/
def COLNAME_PREFIX_SUPERVISCONTACT : Str := str "Q152"

/-- Name of the Tier 4 visa column. -/
def COLNAME_PREFIX_TIER4_VISA : Str := str "Q153"

/-- Name of the proposed-deadline column. -/
def COLNAME_PREFIX_PROPOSEDDEADLINE : Str := str "Q151"

/-- Name of the academic-advisor column. -/
def COLNAME_PREFIX_ADVISORNAME : Str := str "Q17"

/-- Name of the mitigation-detail column. -/
def COLNAME_PREFIX_MITIGATIONDETAIL : Str := str "Q19"

/-- Name of the period-affected column. -/
def COLNAME_PREFIX_PERIODAFFECTED : Str := str "Q20"

/-- Name of the late-application column. -/
def COLNAME_PREFIX_LATEAPPLICATION : Str := str "Q21"

/-- Name of the assessment-count column. -/
def COLNAME_PREFIX_ASSESSMENTCOUNT : Str := str "Q160"

/-- Name of the DASS-registration column. -/
def COLNAME_PREFIX_DASS_REGISTERED : Str := str "Q2"

/-- The Student ID diagnostic of `COLUMN_KEY_ERROR_MESSAGES`
(mitcircs.py line 123), verbatim. -/
def MSG_STUDENTID : Str :=
  str "Could not read " ++ sglq ++ str "Student ID" ++ sglq ++
  str " column!\nExpected column name to be " ++ sglq ++ str "Q4" ++ sglq ++
  str " - please check this and run again."

/-- mitcircs.py line 122, `COLUMN_KEY_ERROR_MESSAGES`: the per-column
diagnostics shown when a required column is structurally absent.  The
messages are transcribed verbatim, including the stray space after the
newline in every entry except the Student ID one. -/
def COLUMN_KEY_ERROR_MESSAGES : List (Str × Str) :=
  [(COLNAME_PREFIX_STUDENTID, MSG_STUDENTID),
   (COLNAME_PREFIX_EMAILADDRESS,
     str "Could not read " ++ sglq ++ str "Email Address" ++ sglq ++
     str " column!\n Expected column name to be " ++ sglq ++ str "Q3" ++
     sglq ++ str " - please check this and run again."),
   (COLNAME_PREFIX_DATESUBMITTED,
     str "Could not read " ++ sglq ++ sglq ++
     str " column!\n Expected column name to be " ++ sglq ++ sglq ++
     str " - please check this and run again."),
   (COLNAME_PREFIX_ISPOSTGRADORRES,
     str "Could not read " ++ sglq ++ str "Is Postgrad. or Research" ++
     sglq ++ str " column!\n Expected column name to be " ++ sglq ++
     str "Q150" ++ sglq ++ str " - please check this and run again."),
   (COLNAME_PREFIX_ASSESSMENTCOUNT,
     str "Could not read " ++ sglq ++ str "Assessment Count" ++ sglq ++
     str " column!\n Expected column name to be " ++ sglq ++ str "Q160" ++
     sglq ++ str " - please check this and run again."),
   (COLNAME_PREFIX_MITIGATIONDETAIL,
     str "Could not read " ++ sglq ++ str "Details of Mitigation" ++ sglq ++
     str " column!\n Expected column name to be " ++ sglq ++ str "Q19" ++
     sglq ++ str " - please check this and run again."),
   (COLNAME_PREFIX_PERIODAFFECTED,
     str "Could not read " ++ sglq ++ str "Period Affected" ++ sglq ++
     str " column!\n Expected column name to be " ++ sglq ++ str "Q20" ++
     sglq ++ str " - please check this and run again."),
   (COLNAME_PREFIX_ADVISORNAME,
     str "Could not read " ++ sglq ++ str "Advisor Name" ++ sglq ++
     str " column!\n Expected column name to be " ++ sglq ++ str "Q17" ++
     sglq ++ str " - please check this and run again."),
   (COLNAME_PREFIX_LATEAPPLICATION,
     str "Could not read " ++ sglq ++
     str "Application Outside of Deadline" ++ sglq ++
     str " column!\n Expected column name to be " ++ sglq ++ str "Q21" ++
     sglq ++ str " - please check this and run again."),
   (COLNAME_PREFIX_SUPERVISCONTACT,
     str "Could not read " ++ sglq ++ str "Supervisor Spoken To" ++ sglq ++
     str " column!\n Expected column name to be " ++ sglq ++ str "Q152" ++
     sglq ++ str " - please check this and run again."),
   (COLNAME_PREFIX_TIER4_VISA,
     str "Could not read " ++ sglq ++ str "On Tier 4 Visa?" ++ sglq ++
     str " column!\n Expected column name to be " ++ sglq ++ str "Q153" ++
     sglq ++ str " - please check this and run again."),
   (COLNAME_PREFIX_PROPOSEDDEADLINE,
     str "Could not read " ++ sglq ++ str "Proposed New Submission Date" ++
     sglq ++ str " column!\n Expected column name to be " ++ sglq ++
     str "Q151" ++ sglq ++ str " - please check this and run again.")]

/-!
## Record builder (mitcircs.py lines 645-751)
-/

/-- One data row of the table: the column names and the positionally
aligned cell values (a pandas Series). -/
structure Row where
  cols : List Str
  vals : List Cell

/-- Label access `row[key]` on a Series: first matching label, `KeyError`
(carrying the key) when the label is absent.  The program's column names
are distinct at runtime (pandas renames duplicates on read), so
first-match lookup is the behaviour the source sees. -/
def rowGet (r : Row) (k : Str) : Except Str Cell :=
  match (r.cols.zip r.vals).lookup k with
  | some c => .ok c
  | none => .error k

/-- mitcircs.py line 547, `create_student_name`: empty when the Q1 cell is
NaN, otherwise the cell's text; stripped either way. -/
def create_student_name (r : Row) : Except Str Str := do
  let q1 ← rowGet r COLNAME_PREFIX_STUDENTNAME
  pure (pyStrip (match q1 with | none => [] | some s => s))

/-- mitcircs.py line 559, `student_is_DASS` with `return_input_string` set,
composed with the `str()` the caller applies: `str(False)` for an empty or
NaN cell, the cell's text otherwise. -/
def student_is_DASS_str (c : Cell) : Str :=
  match c with
  | none => str "False"
  | some s => if s = [] then str "False" else s

/-- The scalar identity/context fields read in the `try` block of
`build_student_requests` (mitcircs.py lines 667-687), before the response
blocks are visited. -/
structure Scalars where
  name : Str
  ID : Str
  email : Str
  subdate : Str
  programme : Str
  courseyear : Str
  isPGR : Str
  NAffected : Str
  circumstances : Str
  dates_affected : Str
  DASS : Str
  advisor : Str
  latereason : Str
  evidence : Str
  superinformed : Str
  supervisor : Str
  T4Visa : Str
  proposedDL : Str

/-- The `try` block of mitcircs.py lines 667-687: the scalar fields in the
order the source reads them, where the first absent column raises
`KeyError` with that column's name. -/
def build_request_scalars (header : List Cell) (r : Row) :
    Except Str Scalars := do
  let name ← create_student_name r
  let cID ← rowGet r COLNAME_PREFIX_STUDENTID
  let cEmail ← rowGet r COLNAME_PREFIX_EMAILADDRESS
  let cSub ← rowGet r COLNAME_PREFIX_DATESUBMITTED
  let programme := string_parse_header r.vals header (str "Programme")
  let courseyear := string_parse_header r.vals header (str "Year")
  let cPGR ← rowGet r COLNAME_PREFIX_ISPOSTGRADORRES
  let cCount ← rowGet r COLNAME_PREFIX_ASSESSMENTCOUNT
  let cDetail ← rowGet r COLNAME_PREFIX_MITIGATIONDETAIL
  let cPeriod ← rowGet r COLNAME_PREFIX_PERIODAFFECTED
  let cDASS ← rowGet r COLNAME_PREFIX_DASS_REGISTERED
  let cAdvisor ← rowGet r COLNAME_PREFIX_ADVISORNAME
  let cLate ← rowGet r COLNAME_PREFIX_LATEAPPLICATION
  let evidence := string_parse_header r.vals header
    (str "submitting evidence with your application")
  let cSuper ← rowGet r COLNAME_PREFIX_SUPERVISCONTACT
  let supervisor := string_parse_header r.vals header
    (str "Dissertation supervisor name")
  let cVisa ← rowGet r COLNAME_PREFIX_TIER4_VISA
  let cDL ← rowGet r COLNAME_PREFIX_PROPOSEDDEADLINE
  pure
    { name := name
      ID := string_reformat_nan (some (pyStrip (cellToStr cID)))
        (str "None given")
      email := string_reformat_nan (some (pyStrip (cellToStr cEmail)))
        (str "None given")
      subdate := string_reformat_nan (some (pyStrip (cellToStr cSub)))
        (str "None given")
      programme := programme
      courseyear := courseyear
      isPGR := string_reformat_nan (some (pyStrip (cellToStr cPGR)))
        (str "None given")
      NAffected := string_reformat_nan (some (pyStrip (cellToStr cCount)))
        (str "None given")
      circumstances := string_reformat_nan
        (some (pyStrip (cellToStr cDetail))) (str "None given")
      dates_affected := string_reformat_nan
        (some (pyStrip (cellToStr cPeriod))) (str "None given")
      DASS := student_is_DASS_str cDASS
      advisor := string_reformat_nan (some (pyStrip (cellToStr cAdvisor)))
        (str "None given")
      latereason := string_reformat_nan (some (pyStrip (cellToStr cLate)))
        (str "None given")
      evidence := evidence
      superinformed := string_reformat_nan
        (some (pyStrip (cellToStr cSuper))) (str "None given")
      supervisor := supervisor
      T4Visa := string_reformat_nan (some (pyStrip (cellToStr cVisa)))
        (str "None given")
      proposedDL := string_reformat_nan (some (pyStrip (cellToStr cDL)))
        (str "None given") }

/-- One per-assessment sub-record: the six values appended to the parallel
`asm_*` lists of a `StudentRequest` for a block that passed the fill-in
predicate (mitcircs.py lines 733-738). -/
structure AssessmentEntry where
  code : Str
  name : Str
  isResub : Str
  other : Str
  resubdate : Str
  status : Str

/-- Positional access `cells.iloc[i]` on a Series: `IndexError` (modelled
as `Except.error ()`) when the position is out of range. -/
def getCell (cells : List Cell) (i : Nat) : Except Unit Cell :=
  match cells.get? i with
  | some c => .ok c
  | none => .error ()

/-- Positional list access `row.iloc[indices]`: all the requested positions,
`IndexError` if any is out of range. -/
def ilocSeq (row : List Cell) : List Nat → Except Unit (List Cell)
  | [] => .ok []
  | i :: rest =>
    match row.get? i with
    | none => .error ()
    | some c =>
      match ilocSeq row rest with
      | .error e => .error e
      | .ok cs => .ok (c :: cs)

/-- The six `req.asm_*.append(...)` lines of mitcircs.py lines 733-738:
fetch the block's cells at the fixed role offsets (3, 5, 4, 6 and 8) and
normalize them.  An offset beyond the block's width raises `IndexError`,
which aborts the whole run, so the partial appends the source makes before
the raise are unobservable and the extraction is modelled all-or-nothing. -/
def extract_entry (cells : List Cell) : Except Unit AssessmentEntry := do
  let cUA ← getCell cells (respIdx COLNAME_SUFFIX_UNITASSESSMENT)
  let cRS ← getCell cells (respIdx COLNAME_SUFFIX_RESUBMISSION)
  let cOI ← getCell cells (respIdx COLNAME_SUFFIX_OTHERINFORMATION)
  let cRF ← getCell cells (respIdx COLNAME_SUFFIX_RESUB_FIRST)
  let cSS ← getCell cells (respIdx COLNAME_SUFFIX_SUBSTATUS)
  pure
    { code := detect_return_unitcode (cellToStr cUA)
      name := string_reformat_nan (some (cellToStr cUA)) (str "None given")
      isResub := string_reformat_nan (some (cellToStr cRS)) (str "None given")
      other := string_reformat_nan (some (cellToStr cOI)) (str "-")
      resubdate := string_reformat_nan (some (cellToStr cRF)) (str "None given")
      status := string_reformat_nan (some (cellToStr cSS)) (str "None given") }

/-- The `for key in Q_cols.keys()` loop of mitcircs.py lines 704-738,
carrying the `first_iteration` flag and the `division` accumulator: fetch
the block's cells, skip the block when the fill-in predicate fails, read
the division from the first passing block, extract an entry otherwise. -/
def process_blocks_go (row : List Cell) :
    List (Str × List Nat) → Bool → Str →
      Except Unit (List AssessmentEntry × Str)
  | [], _, division => .ok ([], division)
  | b :: rest, first_iteration, division =>
    match ilocSeq row b.2 with
    | .error e => .error e
    | .ok cells =>
      if minimum_responses_provided cells MINIMUM_REQUIRED_RESPONSES = false
      then process_blocks_go row rest first_iteration division
      else
        match extract_entry cells with
        | .error e => .error e
        | .ok entry =>
          match process_blocks_go row rest false
              (if first_iteration then string_parse_division cells
               else division) with
          | .error e => .error e
          | .ok (entries, divfin) => .ok (entry :: entries, divfin)

/-- The block loop of `build_student_requests` for one row, started with an
empty division and the `first_iteration` flag set (mitcircs.py
lines 701-702). -/
def process_blocks (row : List Cell) (qcols : List (Str × List Nat)) :
    Except Unit (List AssessmentEntry × Str) :=
  process_blocks_go row qcols true []

/-- Whether a block's cells satisfy the fill-in predicate for a row (the
fetch composed with `minimum_responses_provided`; a fetch that would raise
counts as not filled). -/
def block_filled (row : List Cell) (idxs : List Nat) : Bool :=
  match ilocSeq row idxs with
  | .ok cells => minimum_responses_provided cells MINIMUM_REQUIRED_RESPONSES
  | .error _ => false

/-- Number of discovered blocks whose cells satisfy the fill-in predicate
for a row. -/
def countFilled (qcols : List (Str × List Nat)) (row : List Cell) : Nat :=
  (qcols.filter fun b => block_filled row b.2).length

/-- mitcircs.py line 175, class `StudentRequest`: the per-student record.
The `semester` field is set to an ellipsis and `evidencesummary` is never
assigned (it keeps its empty initial value). -/
structure StudentRequest where
  name : Str
  ID : Str
  email : Str
  subdate : Str
  programme : Str
  courseyear : Str
  division : Str
  isPGR : Str
  NAffected : Str
  circumstances : Str
  dates_affected : Str
  DASS : Str
  semester : Str
  advisor : Str
  latereason : Str
  evidence : Str
  evidencesummary : Str
  superinformed : Str
  supervisor : Str
  T4Visa : Str
  proposedDL : Str
  asm_codes : List Str
  asm_names : List Str
  other_asm : List Str
  asm_is_resub : List Str
  asm_resubdate : List Str
  asm_resubstatus : List Str

/-- How one pass of the row loop of `build_student_requests` can fail:
`aborted` models the message box plus `exit(1)` of the `except KeyError`
handler; `crashed` models a `KeyError` whose key the handler's own dict
lookup cannot resolve (an uncaught exception); `indexError` models an
uncaught positional `IndexError` in the block loop. -/
inductive BuildError where
  | aborted : Str → BuildError
  | crashed : Str → BuildError
  | indexError : BuildError
deriving DecidableEq

/-- One iteration of the row loop of `build_student_requests`
(mitcircs.py lines 666-749): read the scalar fields (mapping a `KeyError`
through `COLUMN_KEY_ERROR_MESSAGES`), run the block loop, and assemble the
`StudentRequest`, including the block-derived division and the six
parallel per-assessment lists. -/
def build_one_request (header : List Cell) (qcols : List (Str × List Nat))
    (r : Row) : Except BuildError StudentRequest :=
  match build_request_scalars header r with
  | .error k =>
    match COLUMN_KEY_ERROR_MESSAGES.lookup k with
    | some msg => .error (.aborted msg)
    | none => .error (.crashed k)
  | .ok s =>
    match process_blocks r.vals qcols with
    | .error _ => .error .indexError
    | .ok (entries, division) =>
      .ok
        { name := s.name
          ID := s.ID
          email := s.email
          subdate := s.subdate
          programme := s.programme
          courseyear := s.courseyear
          division := division
          isPGR := s.isPGR
          NAffected := s.NAffected
          circumstances := s.circumstances
          dates_affected := s.dates_affected
          DASS := s.DASS
          semester := str "..."
          advisor := s.advisor
          latereason := s.latereason
          evidence := s.evidence
          evidencesummary := []
          superinformed := s.superinformed
          supervisor := s.supervisor
          T4Visa := s.T4Visa
          proposedDL := s.proposedDL
          asm_codes := entries.map fun e => e.code
          asm_names := entries.map fun e => e.name
          other_asm := entries.map fun e => e.other
          asm_is_resub := entries.map fun e => e.isResub
          asm_resubdate := entries.map fun e => e.resubdate
          asm_resubstatus := entries.map fun e => e.status }

/-- The raw table handed to the record builder: column names plus data
rows, the first data row being the HeaderDescriptions pseudo-row. -/
structure Table where
  cols : List Str
  rows : List (List Cell)

/-- The row loop of `build_student_requests`: build each row's request and
append it; the first failure aborts the run. -/
def build_all (header : List Cell) (qcols : List (Str × List Nat))
    (cols : List Str) : List (List Cell) → Except BuildError (List StudentRequest)
  | [] => .ok []
  | vals :: rest =>
    match build_one_request header qcols ⟨cols, vals⟩ with
    | .error e => .error e
    | .ok req =>
      match build_all header qcols cols rest with
      | .error e => .error e
      | .ok reqs => .ok (req :: reqs)

/-- mitcircs.py line 645, `build_student_requests`: split off the header
(top) row, locate the response blocks once with `response_max = 100`, and
run the row loop over the remaining rows. -/
def build_student_requests (t : Table) :
    Except BuildError (List StudentRequest) :=
  match t.rows with
  | [] => .ok []
  | header :: rest =>
    build_all header (locate_response_columns t.cols 100) t.cols rest

/-- The value a successful `Except` computation carries. -/
def okE {ε α : Type} : Except ε α → Option α
  | .ok a => some a
  | .error _ => none

/-- Whether an `Except` computation succeeded. -/
def exceptIsOk {ε α : Type} (e : Except ε α) : Bool := (okE e).isSome

/-!
## Tabular projection (mitcircs.py lines 761-857)
-/

/-- Python's `"\n".join(...)`, used to collapse the per-assessment lists
into one multi-line cell. -/
def joinNL (xs : List Str) : Str := List.intercalate (str "\n") xs

/-- mitcircs.py line 761, `requests_to_spreadsheet` up to the `columns`
dict: one output row per request, in request order.  Each output column is
the list of its cells; the loop appends one value per request to every
column list, which is the per-column `map` below.  The `resubdates` list
(`"\n".join(req.asm_resubdate)`, line 837) is built by the loop but never
placed in the `columns` dict, so it does not appear here either; the
review-process placeholder columns carry their constant sentinel text. -/
def requests_to_spreadsheet (requests : List StudentRequest) :
    List (Str × List Str) :=
  [(str "Date Submitted", requests.map fun r => r.subdate),
   (str "Full Name", requests.map fun r => r.name),
   (str "University Email", requests.map fun r => r.email),
   (str "Student ID Number", requests.map fun r => r.ID),
   (str "Are you applying for a postgraduate dissertation or research project?",
     requests.map fun r => r.isPGR),
   (str "No. Assessments/Exams", requests.map fun r => r.NAffected),
   (str "Division", requests.map fun r => r.division),
   (str "Programme", requests.map fun r => r.programme),
   (str "Year", requests.map fun r => r.courseyear),
   (str "Unit Code", requests.map fun r => joinNL r.asm_codes),
   (str "Assessment name and submission date",
     requests.map fun r => joinNL r.asm_names),
   (str "Is this a resubmission (including date)?",
     requests.map fun r => joinNL r.asm_is_resub),
   (str "Other Assessment Info.", requests.map fun r => joinNL r.other_asm),
   (str "Submission Status", requests.map fun r => joinNL r.asm_resubstatus),
   (str "Academic Advisor(s)", requests.map fun r => r.advisor),
   (str "Reason for Mitigation", requests.map fun r => r.circumstances),
   (str "Period Affected", requests.map fun r => r.dates_affected),
   (str "Late Application - Reason", requests.map fun r => r.latereason),
   (str "DASS Registration", requests.map fun r => r.DASS),
   (str "Evidence Declaration", requests.map fun r => r.evidence),
   (str "Supervisor Aware?", requests.map fun r => r.superinformed),
   (str "Supervisor Name", requests.map fun r => r.supervisor),
   (str "Tier 4 Visa", requests.map fun r => r.T4Visa),
   (str "Proposed New Deadline", requests.map fun r => r.proposedDL),
   (str "Evidence Summary", requests.map fun r => r.evidencesummary),
   (str "Outcome", requests.map fun _ => str "Pending Outcome..."),
   (str "Email Type", requests.map fun _ => str "..."),
   (str "To Be Sent By (Initials)...",
     requests.map fun _ => str "Pending Outcome..."),
   (str "Notes", requests.map fun _ => str "..."),
   (str "Panel Notes", requests.map fun _ => str "..."),
   (str "Outcome Sent to Student", requests.map fun _ => str "Pending Send..."),
   (str "Outcome Sent Date", requests.map fun _ => str "Pending Send...")]

/-- The output column names, in the order of the `columns` dict of
mitcircs.py lines 848-857. -/
def outputColumnNames : List Str :=
  [str "Date Submitted", str "Full Name", str "University Email",
   str "Student ID Number",
   str "Are you applying for a postgraduate dissertation or research project?",
   str "No. Assessments/Exams", str "Division", str "Programme", str "Year",
   str "Unit Code", str "Assessment name and submission date",
   str "Is this a resubmission (including date)?",
   str "Other Assessment Info.", str "Submission Status",
   str "Academic Advisor(s)", str "Reason for Mitigation",
   str "Period Affected", str "Late Application - Reason",
   str "DASS Registration", str "Evidence Declaration",
   str "Supervisor Aware?", str "Supervisor Name", str "Tier 4 Visa",
   str "Proposed New Deadline", str "Evidence Summary", str "Outcome",
   str "Email Type", str "To Be Sent By (Initials)...", str "Notes",
   str "Panel Notes", str "Outcome Sent to Student", str "Outcome Sent Date"]

/-!
## Concrete inputs used by the witnesses and counterexamples
-/

/-- A partially-filled row for one five-column block, every cell present. -/
def c2row : List Cell :=
  [some (str "Division of Nursing"), some (str "BSc Nursing"),
   some (str "2"), some (str "NURS23456: essay - 01/02/2025"),
   some (str "extra info")]

/-- A single discovered block with five columns (offsets 0-4): a partial
block in the sense of the claim, having at least one but fewer than nine
recognized columns. -/
def c2qcols : List (Str × List Nat) := [(str "1", [0, 1, 2, 3, 4])]

/-- A row carrying one full nine-column block. -/
def c2okRow : List Cell :=
  [some (str "Division of Nursing"), some (str "BSc Nursing"),
   some (str "2"), some (str "NURS23456: essay - 01/02/2025"), none,
   some (str "No"), none, none, some (str "Submitted")]

/-- One full block covering all nine role offsets. -/
def c2okQcols : List (Str × List Nat) := [(str "1", [0, 1, 2, 3, 4, 5, 6, 7, 8])]

/-- Column names for the column-block locator example: the only block-6
columns are the four of the claim. -/
def c5colnames : List Str :=
  [str "StartDate", str "6_4", str "6_Q165", str "6_1_TEXT", str "6_Q163",
   str "Q4"]

/-- Column names of a table holding every scalar column the builder reads. -/
def c6cols : List Str :=
  [str "Q1", str "Q4", str "Q3", str "RecordedDate", str "Q150", str "Q160",
   str "Q19", str "Q20", str "Q2", str "Q17", str "Q21", str "Q152",
   str "Q153", str "Q151"]

/-- Cell values aligned with `c6cols`; the Student ID cell (position 1) is
NaN. -/
def c6vals : List Cell :=
  [some (str "Alice Example"), none, some (str "alice.example@uni.test"),
   some (str "2025-01-13 09:00"), some (str "No"), some (str "1"),
   some (str "Illness"), some (str "01/01/25 to 05/01/25"), some (str "No"),
   some (str "Dr Advisor"), some (str "n/a"), some (str "No"),
   some (str "No"), some (str "2025-02-02")]

/-- A complete row whose Student ID cell is NaN. -/
def c6row : Row := ⟨c6cols, c6vals⟩

/-- A row whose table has the Q1 column but no Q4 column. -/
def c6badRow : Row :=
  ⟨[str "Q1", str "Q3"], [some (str "Bob Example"), some (str "x")]⟩

/-- A header-descriptions row of the same width as `c6vals`. -/
def c8header : List Cell := List.replicate 14 (some (str "question text"))

/-- One discovered block pointing at the NaN cell of `c6vals`: in range,
but failing the fill-in predicate. -/
def c8qcols : List (Str × List Nat) := [(str "1", [1])]

/-- Header row for the header-resolver counterexample: two cells carry the
Programme marker. -/
def cexHeader : List Cell :=
  [some (str "The Programme you are on"),
   some (str "Second Programme question")]

/-- Data row for the header-resolver counterexample: the first marked
position holds the empty string (present but empty), the second a real
programme name. -/
def cexRow : List Cell := [some [], some (str "BSc Nursing")]

/-- A request with two assessments, whose resubmission dates are two
distinctive strings that appear nowhere else in the record. -/
def c9req : StudentRequest :=
  { name := str "Alice Example", ID := str "1234567",
    email := str "alice.example@uni.test", subdate := str "2025-01-13",
    programme := str "BSc Nursing", courseyear := str "2",
    division := str "Division of Nursing", isPGR := str "No",
    NAffected := str "2", circumstances := str "Illness",
    dates_affected := str "01/01/25 to 05/01/25", DASS := str "False",
    semester := str "...", advisor := str "Dr Advisor",
    latereason := str "None given", evidence := str "Yes",
    evidencesummary := [], superinformed := str "No",
    supervisor := str "...", T4Visa := str "No",
    proposedDL := str "2025-02-02",
    asm_codes := [str "ABCD1", str "EFGH2"],
    asm_names := [str "ABCD1: essay", str "EFGH2: exam"],
    other_asm := [str "-", str "-"],
    asm_is_resub := [str "No", str "Yes"],
    asm_resubdate := [str "RDATE-A", str "RDATE-B"],
    asm_resubstatus := [str "Submitted", str "Will submit"] }

/-- A three-row table for the junk-row scan: only row 0 contains the
marker. -/
def c10tableA : List (List Cell) :=
  [[some (str "Start"), some (str "abc ImportId def")],
   [some (str "data one"), some (str "x")],
   [some (str "data two"), some (str "y")]]

/-- A three-row table for the junk-row scan: rows 1 and 2 both contain the
marker, so the last match (row 2) wins. -/
def c10tableB : List (List Cell) :=
  [[some (str "nothing here")],
   [some (str "ImportId a")],
   [some (str "b ImportId")]]

/-!
## Helper lemmas
-/

/-- Bind on a successful `Except` computation. -/
@[simp] theorem exbind_ok {ε α β : Type} (a : α) (f : α → Except ε β) :
    (Except.ok a : Except ε α) >>= f = f a := rfl

/-- Bind on a failed `Except` computation. -/
@[simp] theorem exbind_error {ε α β : Type} (e : ε) (f : α → Except ε β) :
    (Except.error e : Except ε α) >>= f = Except.error e := rfl

/-- `pure` on `Except` is `ok`. -/
@[simp] theorem expure {ε α : Type} (a : α) :
    (pure a : Except ε α) = Except.ok a := rfl

/-- Splitting a cell list's length into its NaN and non-NaN parts. -/
theorem count_some_add_count_none (cells : List Cell) :
    (cells.filter fun c => c.isSome).length
      + (cells.filter fun c => c.isNone).length = cells.length := by
  induction cells with
  | nil => rfl
  | cons c t ih =>
    cases c <;> simp [List.filter, ih] <;> omega

/-- The compiled unit-code pattern can never match: its `^` anchor sits
after five mandatory literal characters, and without MULTILINE the anchor
only succeeds at absolute position zero. -/
theorem matchEnds_unitcode_nil (s : Str) (i : Nat) :
    matchEnds unitcode_regex s i = [] := by
  have hl : unitcode_lit0.length = 5 := rfl
  simp only [unitcode_regex, matchEnds]
  by_cases h : unitcode_lit0.isPrefixOf (s.drop i)
  · simp [h, hl]
  · simp [h]

/-- Hence `re.search` with the compiled pattern returns `None` on every
input. -/
theorem reSearch_unitcode_none (s : Str) :
    reSearch unitcode_regex s = none := by
  unfold reSearch
  generalize List.range (s.length + 1) = l
  induction l with
  | nil => rfl
  | cons i t ih => simp [reSearchAux, matchEnds_unitcode_nil, ih]

/-- C1: the design document says `extractUnitCode` trims the input and, when
the trimmed text starts with one to five uppercase letters followed by two
to six digits, returns exactly that prefix, falling back to the first nine
characters otherwise.  The code disagrees with the matching branch: the
pattern is compiled without `re.VERBOSE`, so it can never match and the
function always takes the nine-character salvage branch.  At the input
AB12 mock exam the claimed behaviour (also computed here from the pattern's
`re.VERBOSE` reading) is AB12, but the code returns AB12 mock. -/
theorem detect_return_unitcode_code_bug :
    (∀ s : Str, detect_return_unitcode s = (pyStrip s).take 9)
    ∧ detect_return_unitcode (str "AB12 mock exam") = str "AB12 mock"
    ∧ reSearch unitcode_regex_verbose (str "AB12 mock exam")
        = some (str "AB12")
    ∧ str "AB12 mock" ≠ str "AB12" := by
  refine ⟨fun s => ?_, by decide, by decide, by decide⟩
  simp [detect_return_unitcode, reSearch_unitcode_none]

/-- C3: `normalize` returns the fallback exactly on an absent/NaN cell, the
empty string, or the text nan in any letter case, and returns every other
string unchanged, with no trimming. -/
theorem string_reformat_nan_spec :
    ∀ (c : Cell) (fb : Str),
      ((c = none ∨ c = some [] ∨ ∃ s, c = some s ∧ pyLower s = str "nan") →
        string_reformat_nan c fb = fb)
      ∧ (∀ s, c = some s → s ≠ [] → pyLower s ≠ str "nan" →
          string_reformat_nan c fb = s) := by
  intro c fb
  constructor
  · rintro (rfl | rfl | ⟨s, rfl, hs⟩)
    · rfl
    · simp [string_reformat_nan]
    · simp [string_reformat_nan, hs]
  · rintro s rfl h1 h2
    simp [string_reformat_nan, h1, h2]

/-- Witness for C3: the fallback fires on the text NaN, and an ordinary
string (even one with surrounding spaces) comes back unchanged. -/
theorem string_reformat_nan_spec_witness :
    string_reformat_nan (some (str "NaN")) (str "None given")
      = str "None given"
    ∧ string_reformat_nan (some (str "  keep me  ")) (str "None given")
      = str "  keep me  " :=
  ⟨(string_reformat_nan_spec (some (str "NaN")) (str "None given")).1
      (Or.inr (Or.inr ⟨str "NaN", rfl, by decide⟩)),
   (string_reformat_nan_spec (some (str "  keep me  "))
      (str "None given")).2 (str "  keep me  ") rfl (by decide) (by decide)⟩

/-- C4: the fill-in predicate holds exactly when the count of non-missing
cells reaches the minimum clamped to the number of cells; a block with two
of eight cells filled misses the default minimum of four, one with four
filled meets it. -/
theorem minimum_responses_provided_spec :
    (∀ (cells : List Cell) (minimum : Nat),
      minimum_responses_provided cells minimum
        = decide ((cells.filter fun c => c.isSome).length
            ≥ min minimum cells.length))
    ∧ minimum_responses_provided
        [some (str "a"), some (str "b"), none, none, none, none, none, none]
        MINIMUM_REQUIRED_RESPONSES = false
    ∧ minimum_responses_provided
        [some (str "a"), some (str "b"), some (str "c"), some (str "d"),
         none, none, none, none] MINIMUM_REQUIRED_RESPONSES = true := by
  refine ⟨fun cells minimum => ?_, by decide, by decide⟩
  have h := count_some_add_count_none cells
  have hlen : (cells.filter fun c => c.isNone).length ≤ cells.length :=
    List.length_filter_le _ _
  simp only [minimum_responses_provided, Nat.zero_max]
  rw [decide_eq_decide]
  rcases le_or_lt minimum cells.length with hm | hm
  · rw [if_neg (by omega), Nat.min_eq_left hm]
    omega
  · rw [if_pos hm, Nat.min_eq_right (by omega)]
    omega


/-- Association lookup misses when no entry carries the key. -/
theorem lookup_none_of_keys (l : List (Str × List Nat)) (k : Str)
    (h : ∀ e ∈ l, e.1 ≠ k) : l.lookup k = none := by
  induction l with
  | nil => rfl
  | cons a t ih =>
    have hka : (k == a.1) = false :=
      beq_eq_false_iff_ne.mpr fun hk => h a (by simp) hk.symm
    obtain ⟨a1, a2⟩ := a
    simp only [List.lookup, hka]
    exact ih fun e he => h e (by simp [he])

/-- Every registered block's key comes from the candidate numbers list. -/
theorem mem_ur_keys (rc : List (Str × Nat)) (keys : List Str) :
    ∀ e ∈ unique_response_locations rc keys, e.1 ∈ keys := by
  intro e he
  simp only [unique_response_locations, List.mem_filterMap] at he
  obtain ⟨r, hr, hfe⟩ := he
  split at hfe
  · cases hfe
  · cases hfe
    exact hr

/-- Unfolding one candidate number of the registration scan. -/
theorem ur_cons (rc : List (Str × Nat)) (a : Str) (t : List Str) :
    unique_response_locations rc (a :: t)
      = (if ((rc.filter fun c => (a ++ usep).isPrefixOf c.1).map
            fun c => c.2) = []
         then unique_response_locations rc t
         else (a, (rc.filter fun c => (a ++ usep).isPrefixOf c.1).map
                fun c => c.2) :: unique_response_locations rc t) := by
  simp only [unique_response_locations, List.filterMap_cons]
  by_cases h : ((rc.filter fun c => (a ++ usep).isPrefixOf c.1).map
      fun c => c.2) = []
  · rw [if_pos h, if_pos h]
  · rw [if_neg h, if_neg h]

/-- Looking up a candidate number in the registered blocks yields exactly
the stored indices of its underscore-prefixed columns, or nothing when
there are none. -/
theorem lookup_unique_response_locations (rc : List (Str × Nat))
    (keys : List Str) (hnd : keys.Nodup) (k : Str) (hk : k ∈ keys) :
    (unique_response_locations rc keys).lookup k
      = (if ((rc.filter fun c => (k ++ usep).isPrefixOf c.1).map
            fun c => c.2) = []
         then none
         else some ((rc.filter fun c => (k ++ usep).isPrefixOf c.1).map
            fun c => c.2)) := by
  induction keys with
  | nil => cases hk
  | cons a t ih =>
    rw [List.nodup_cons] at hnd
    rw [ur_cons]
    by_cases hak : a = k
    · subst hak
      by_cases hempty : ((rc.filter fun c => (a ++ usep).isPrefixOf c.1).map
          fun c => c.2) = []
      · rw [if_pos hempty, if_pos hempty]
        exact lookup_none_of_keys _ _ fun e he hek =>
          hnd.1 (hek ▸ mem_ur_keys rc t e he)
      · rw [if_neg hempty, if_neg hempty]
        simp [List.lookup]
    · have hkt : k ∈ t := by
        rcases List.mem_cons.mp hk with h | h
        · exact absurd h.symm hak
        · exact h
      have htail := ih hnd.2 hkt
      by_cases hae : ((rc.filter fun c => (a ++ usep).isPrefixOf c.1).map
          fun c => c.2) = []
      · rw [if_pos hae]
        exact htail
      · rw [if_neg hae]
        have hka : (k == a) = false :=
          beq_eq_false_iff_ne.mpr fun h => hak h.symm
        simp only [List.lookup, hka]
        exact htail

/-- A prefix extended on the right is still a prefix of anything it was a
prefix of. -/
theorem isPrefixOf_of_append {a b c : Str}
    (h : (a ++ b).isPrefixOf c = true) : a.isPrefixOf c = true := by
  rw [List.isPrefixOf_iff_prefix] at h ⊢
  exact (List.prefix_append a b).trans h

/-- The ninety-nine candidate block numbers are pairwise distinct. -/
theorem numbersNodup : ((List.range' 1 99).map natStr).Nodup := by decide

/-- C5: with a maximum block number of 100, block discovery registers, for
each key from 1 to 99, exactly the positions of the columns whose name
starts with that key followed by an underscore (omitting keys with no such
column), and registers nothing else.  Stated for tables with distinct
column names, which is the domain on which the pandas name-to-position
resolution the source relies on is defined. -/
theorem locate_response_columns_spec :
    ∀ colnames : List Str, colnames.Nodup →
      (∀ k : Nat, 1 ≤ k → k ≤ 99 →
        (locate_response_columns colnames 100).lookup (natStr k)
          = (if ((colnames.enum.filter fun p =>
                (natStr k ++ usep).isPrefixOf p.2).map fun p => p.1) = []
             then none
             else some ((colnames.enum.filter fun p =>
                (natStr k ++ usep).isPrefixOf p.2).map fun p => p.1)))
      ∧ (∀ e ∈ locate_response_columns colnames 100,
          ∃ k : Nat, 1 ≤ k ∧ k ≤ 99 ∧ e.1 = natStr k) := by
  intro colnames _hnd
  constructor
  · intro k h1 h99
    have hm : natStr k ∈ (List.range' 1 (100 - 1)).map natStr :=
      List.mem_map_of_mem _ (List.mem_range'_1.mpr ⟨h1, by omega⟩)
    simp only [locate_response_columns]
    rw [lookup_unique_response_locations _ _ numbersNodup _ hm]
    have hcols :
        ((((colnames.enum.filter fun p =>
              ((List.range' 1 (100 - 1)).map natStr).any fun n =>
                n.isPrefixOf p.2).map fun p => (p.2, p.1)).filter fun c =>
            (natStr k ++ usep).isPrefixOf c.1).map fun c => c.2)
          = ((colnames.enum.filter fun p =>
              (natStr k ++ usep).isPrefixOf p.2).map fun p => p.1) := by
      rw [List.filter_map, List.map_map, List.filter_filter]
      refine congrArg _ (List.filter_congr fun p _ => ?_)
      simp only [Function.comp]
      by_cases hq : (natStr k ++ usep).isPrefixOf p.2
      · simp only [hq, Bool.true_and]
        exact List.any_eq_true.mpr ⟨natStr k, hm, isPrefixOf_of_append hq⟩
      · simp [hq]
    rw [hcols]
  · intro e he
    simp only [locate_response_columns] at he
    have := mem_ur_keys _ _ e he
    simp only [List.mem_map] at this
    obtain ⟨k, hk, hek⟩ := this
    rw [List.mem_range'_1] at hk
    exact ⟨k, hk.1, by omega, hek.symm⟩

/-- Witness for C5: on a column list whose only block-6 columns are 6_4,
6_Q165, 6_1_TEXT and 6_Q163 (at positions 1 to 4), discovery maps key 6 to
exactly those four positions. -/
theorem locate_response_columns_spec_witness :
    (locate_response_columns c5colnames 100).lookup (natStr 6)
      = some [1, 2, 3, 4] := by
  have h := (locate_response_columns_spec c5colnames (by decide)).1 6
    (by decide) (by decide)
  rw [h]
  decide

/-- C10 (implicit from the code): `drop_row_by_string` guards the found
index with a plain truthiness test, so a junk row found at positional
index 0 is treated exactly like no match and the table is returned
unchanged; a match at any strictly positive index (the last matching row,
when several match) is dropped and the index reset.  The concrete
conjuncts exercise the ImportId marker of the caller in `main`: a table
whose only marker row is row 0 survives intact, and a table with markers
in rows 1 and 2 loses row 2. -/
theorem drop_row_by_string_spec :
    (∀ (rows : List (List Cell)) (s : Str),
      (row_containing rows s = some 0 → drop_row_by_string rows s = rows)
      ∧ (∀ i, row_containing rows s = some i → 0 < i →
          drop_row_by_string rows s = rows.eraseIdx i))
    ∧ row_containing c10tableA (str "ImportId") = some 0
    ∧ drop_row_by_string c10tableA (str "ImportId") = c10tableA
    ∧ row_containing c10tableB (str "ImportId") = some 2
    ∧ drop_row_by_string c10tableB (str "ImportId")
        = c10tableB.eraseIdx 2 := by
  refine ⟨fun rows s => ⟨fun h0 => ?_, fun i hi hpos => ?_⟩,
    by decide, by decide, by decide, by decide⟩
  · rw [drop_row_by_string, h0]
  · rw [drop_row_by_string, hi]
    cases i with
    | zero => omega
    | succ k => rfl

/-- Witness for C10: applying the general clauses at the concrete tables. -/
theorem drop_row_by_string_spec_witness :
    drop_row_by_string c10tableA (str "ImportId") = c10tableA
    ∧ drop_row_by_string c10tableB (str "ImportId")
        = c10tableB.eraseIdx 2 :=
  ⟨(drop_row_by_string_spec.1 c10tableA (str "ImportId")).1 (by decide),
   (drop_row_by_string_spec.1 c10tableB (str "ImportId")).2 2 (by decide)
     (by decide)⟩


/-- The head of a filtered list is the first element satisfying the
predicate. -/
theorem head_filter_eq_find {α : Type} (p : α → Bool) (l : List α) :
    (l.filter p).head? = l.find? p := by
  induction l with
  | nil => rfl
  | cons a t ih =>
    by_cases h : p a
    · simp [List.filter, List.find?, h]
    · simp only [List.filter, List.find?]
      rw [Bool.not_eq_true] at h
      rw [h]
      exact ih

/-- An in-range position always yields its cell. -/
theorem get_eq_some_getD (row : List Cell) (i : Nat) (hi : i < row.length) :
    row.get? i = some (row.getD i none) := by
  cases hgi : row.get? i with
  | none => exact absurd (List.get?_eq_none.mp hgi) (by omega)
  | some v =>
    rw [List.getD_eq_getElem?_getD, ← List.get?_eq_getElem?, hgi]
    rfl

/-- Fetching positions that are all in range never drops any of them. -/
theorem filterMap_get_eq_map (row : List Cell) (L : List Nat)
    (h : ∀ i ∈ L, i < row.length) :
    (L.filterMap fun i => row.get? i) = L.map fun i => row.getD i none := by
  induction L with
  | nil => rfl
  | cons i t ih =>
    have hg := get_eq_some_getD row i (h i (by simp))
    simp only [List.filterMap_cons, hg, List.map_cons]
    rw [ih fun j hj => h j (by simp [hj])]

/-- On a strictly increasing list, `find?` returns the unique member that
satisfies the predicate while every smaller member fails it. -/
theorem find_least {L : List Nat} {Q : Nat → Bool} {i : Nat}
    (hs : L.Pairwise (· < ·)) (hi : i ∈ L) (hQ : Q i = true)
    (hmin : ∀ j ∈ L, j < i → Q j = false) : L.find? Q = some i := by
  induction L with
  | nil => cases hi
  | cons a t ih =>
    rw [List.pairwise_cons] at hs
    by_cases ha : Q a
    · have hai : a = i := by
        rcases List.mem_cons.mp hi with h | h
        · exact h.symm
        · by_contra hne
          have hlt : a < i := hs.1 i h
          exact absurd ha (by simp [hmin a (by simp) hlt])
      rw [List.find?_cons_of_pos _ ha, hai]
    · have hia : i ∈ t := by
        rcases List.mem_cons.mp hi with h | h
        · exact absurd (h ▸ hQ) ha
        · exact h
      rw [List.find?_cons_of_neg _ (by simpa using ha)]
      exact ih hs.2 hia fun j hj => hmin j (by simp [hj])

/-- The positions the header scan selects, phrased on the raw header
cells: for positions inside the header, the rendered-strings predicate of
the source equals `headerMarked`. -/
theorem header_indices_eq (header : List Cell) (searchstring : Str) :
    ((List.range (header.map cellToStr).length).filter fun i =>
        isSubstrOf searchstring ((header.map cellToStr).getD i []))
      = (List.range header.length).filter fun i =>
          headerMarked header searchstring i := by
  rw [List.length_map]
  refine List.filter_congr fun i hi => ?_
  have hilt : i < header.length := List.mem_range.mp hi
  have hmap : (header.map cellToStr).getD i []
      = cellToStr (header.getD i none) := by
    have hg := get_eq_some_getD header i hilt
    rw [List.getD_eq_getElem?_getD, List.getElem?_map,
      ← List.get?_eq_getElem?, hg]
    rfl
  rw [hmap, headerMarked]

/-- C7 (amended): the header resolver collects the marked positions,
discards the missing (NaN) values among the current row's cells at those
positions — but not the empty ones — and normalizes the first value that
remains; when every marked position holds a missing value it returns the
ellipsis placeholder.  In particular a present-but-empty first match is
normalized to the fallback text rather than skipped. -/
theorem string_parse_header_first_match :
    ∀ (row header : List Cell) (searchstring : Str),
      row.length = header.length →
      ((∀ i, i < header.length → headerMarked header searchstring i = true →
          row.getD i none = none) →
        string_parse_header row header searchstring = str "...")
      ∧ (∀ i, i < header.length →
          headerMarked header searchstring i = true →
          row.getD i none ≠ none →
          (∀ j, j < i → headerMarked header searchstring j = true →
            row.getD j none = none) →
          string_parse_header row header searchstring
            = string_reformat_nan (some (cellToStr (row.getD i none)))
                (str "None given")) := by
  intro row header searchstring hlen
  have hrange : ∀ i ∈ (List.range header.length).filter
      (fun i => headerMarked header searchstring i), i < row.length := by
    intro i hi
    have := List.mem_range.mp (List.mem_filter.mp hi).1
    omega
  have hbody : string_parse_header row header searchstring
      = match (((List.range header.length).filter fun i =>
            headerMarked header searchstring i).find? fun i =>
              (row.getD i none).isSome).map (fun i => row.getD i none) with
        | some c => string_reformat_nan (some (cellToStr c)) (str "None given")
        | none => str "..." := by
    rw [string_parse_header]
    rw [header_indices_eq, filterMap_get_eq_map row _ hrange]
    rw [List.filter_map, List.head?_map, head_filter_eq_find]
    rfl
  constructor
  · intro hall
    rw [hbody]
    have hfind : (((List.range header.length).filter fun i =>
        headerMarked header searchstring i).find? fun i =>
          (row.getD i none).isSome) = none := by
      rw [List.find?_eq_none]
      intro j hj
      have hjm := List.mem_filter.mp hj
      have hjlt := List.mem_range.mp hjm.1
      rw [hall j hjlt hjm.2]
      simp
    rw [hfind]
    rfl
  · intro i hilt hmark hnn hmin
    rw [hbody]
    have hfind : (((List.range header.length).filter fun i =>
        headerMarked header searchstring i).find? fun i =>
          (row.getD i none).isSome) = some i := by
      refine find_least ((List.pairwise_lt_range _).filter _) ?_ ?_ ?_
      · exact List.mem_filter.mpr ⟨List.mem_range.mpr hilt, hmark⟩
      · cases hcell : row.getD i none with
        | none => exact absurd hcell hnn
        | some v => rfl
      · intro j hj hji
        have hjm := List.mem_filter.mp hj
        rw [hmin j hji hjm.2]
        rfl
    rw [hfind]
    rfl

/-- Counterexample for C7: the claim says empty matches are discarded and
the first NON-empty surviving value is returned.  On a row whose first
Programme-marked cell holds the empty string and whose second holds
BSc Nursing, the code keeps the empty first match and normalizes it to the
fallback text, while the claimed behaviour (computed by the definition
written from the design document's words) returns BSc Nursing. -/
theorem string_parse_header_counterexample :
    string_parse_header cexRow cexHeader (str "Programme") = str "None given"
    ∧ string_parse_header_claimed cexRow cexHeader (str "Programme")
        = str "BSc Nursing"
    ∧ string_parse_header cexRow cexHeader (str "Programme")
        ≠ string_parse_header_claimed cexRow cexHeader (str "Programme") := by
  refine ⟨by decide, by decide, ?_⟩
  decide

/-- Witness for C7: applying the amended theorem's second clause at the
counterexample row, where the first marked position (position 0) is
present but empty, yields the normalized fallback text. -/
theorem string_parse_header_first_match_witness :
    string_parse_header cexRow cexHeader (str "Programme")
      = str "None given" :=
  ((string_parse_header_first_match cexRow cexHeader (str "Programme")
      (by decide)).2 0 (by decide) (by decide) (by decide)
      (fun j hj _ => absurd hj (Nat.not_lt_zero j))).trans (by decide)

/-- A successful `Except` value is an `ok`. -/
theorem exists_ok_of_isOk {ε α : Type} {x : Except ε α}
    (h : exceptIsOk x = true) : ∃ a, x = .ok a := by
  cases x with
  | error e => exact absurd h (by simp [exceptIsOk, okE])
  | ok a => exact ⟨a, rfl⟩

/-- A positional fetch is in bounds exactly when the position is. -/
theorem get_isSome_iff (l : List Cell) (n : Nat) :
    (l.get? n).isSome = true ↔ n < l.length := by
  constructor
  · intro h
    by_contra hn
    push_neg at hn
    rw [List.get?_eq_none.mpr hn] at h
    cases h
  · intro h
    rw [get_eq_some_getD _ _ h]
    rfl

/-- Fetching a list of in-range positions succeeds and returns the cells
at those positions. -/
theorem ilocSeq_ok_of_lt (row : List Cell) (idxs : List Nat)
    (h : ∀ i ∈ idxs, i < row.length) :
    ilocSeq row idxs = .ok (idxs.map fun i => row.getD i none) := by
  induction idxs with
  | nil => rfl
  | cons i t ih =>
    have hg := get_eq_some_getD row i (h i (by simp))
    simp only [ilocSeq, hg, List.map_cons]
    rw [ih fun j hj => h j (by simp [hj])]

/-- Field extraction from a block's cells succeeds exactly when the cells
reach the largest role offset (8), i.e. when the block spans at least nine
columns. -/
theorem extract_entry_ok_iff (cells : List Cell) :
    exceptIsOk (extract_entry cells) = true ↔ 9 ≤ cells.length := by
  have step : exceptIsOk (extract_entry cells) = true ↔
      ((cells.get? 3).isSome = true ∧ (cells.get? 5).isSome = true
        ∧ (cells.get? 4).isSome = true ∧ (cells.get? 6).isSome = true
        ∧ (cells.get? 8).isSome = true) := by
    have h3 : respIdx COLNAME_SUFFIX_UNITASSESSMENT = 3 := by decide
    have h5 : respIdx COLNAME_SUFFIX_RESUBMISSION = 5 := by decide
    have h4 : respIdx COLNAME_SUFFIX_OTHERINFORMATION = 4 := by decide
    have h6 : respIdx COLNAME_SUFFIX_RESUB_FIRST = 6 := by decide
    have h8 : respIdx COLNAME_SUFFIX_SUBSTATUS = 8 := by decide
    cases hg3 : cells[3]? <;> cases hg5 : cells[5]? <;>
      cases hg4 : cells[4]? <;> cases hg6 : cells[6]? <;>
      cases hg8 : cells[8]? <;>
      simp [extract_entry, getCell, h3, h4, h5, h6, h8, hg3, hg4, hg5,
        hg6, hg8, exceptIsOk, okE]
  rw [step, get_isSome_iff, get_isSome_iff, get_isSome_iff, get_isSome_iff,
    get_isSome_iff]
  omega

/-- The block loop succeeds exactly when every block that passes the
fill-in predicate spans at least nine columns (provided every block's
stored positions fit the row, which holds for positions produced by the
locator). -/
theorem process_blocks_go_ok_iff (row : List Cell)
    (l : List (Str × List Nat)) :
    ∀ (first : Bool) (div : Str),
      (∀ b ∈ l, ∀ i ∈ b.2, i < row.length) →
      (exceptIsOk (process_blocks_go row l first div) = true ↔
        ∀ b ∈ l, block_filled row b.2 = true → 9 ≤ b.2.length) := by
  induction l with
  | nil =>
    intro first div _
    simp [process_blocks_go, exceptIsOk, okE]
  | cons b rest ih =>
    intro first div hin
    have hb : ∀ i ∈ b.2, i < row.length := hin b (by simp)
    have hcells := ilocSeq_ok_of_lt row b.2 hb
    have hlen : (b.2.map fun i => row.getD i none).length = b.2.length := by
      simp
    have hrest : ∀ x ∈ rest, ∀ i ∈ x.2, i < row.length :=
      fun x hx => hin x (by simp [hx])
    have hbf : block_filled row b.2
        = minimum_responses_provided (b.2.map fun i => row.getD i none)
            MINIMUM_REQUIRED_RESPONSES := by
      rw [block_filled, hcells]
    simp only [process_blocks_go, hcells]
    by_cases hf : minimum_responses_provided
        (b.2.map fun i => row.getD i none) MINIMUM_REQUIRED_RESPONSES = false
    · rw [if_pos hf]
      rw [ih first div hrest]
      constructor
      · intro hr x hx hfill
        rcases List.mem_cons.mp hx with rfl | hxr
        · rw [hbf, hf] at hfill
          cases hfill
        · exact hr x hxr hfill
      · exact fun hall x hx => hall x (by simp [hx])
    · rw [if_neg hf]
      have hft : minimum_responses_provided
          (b.2.map fun i => row.getD i none) MINIMUM_REQUIRED_RESPONSES
            = true := by
        revert hf
        cases minimum_responses_provided
          (b.2.map fun i => row.getD i none) MINIMUM_REQUIRED_RESPONSES <;>
          simp
      by_cases h9 : 9 ≤ b.2.length
      · have hext : exceptIsOk
            (extract_entry (b.2.map fun i => row.getD i none)) = true :=
          (extract_entry_ok_iff _).mpr (by omega)
        obtain ⟨e, he⟩ := exists_ok_of_isOk hext
        rw [he]
        have ihr := ih false
          (if first then
            string_parse_division (b.2.map fun i => row.getD i none)
           else div) hrest
        cases hgo : process_blocks_go row rest false
            (if first then
              string_parse_division (b.2.map fun i => row.getD i none)
             else div) with
        | error err =>
          rw [hgo] at ihr
          constructor
          · intro habs
            exact absurd habs (by simp [exceptIsOk, okE])
          · intro hall
            have : (∀ x ∈ rest, block_filled row x.2 = true →
                9 ≤ x.2.length) := fun x hx => hall x (by simp [hx])
            have := ihr.mpr this
            exact absurd this (by simp [exceptIsOk, okE])
        | ok p =>
          obtain ⟨entries, divfin⟩ := p
          rw [hgo] at ihr
          constructor
          · intro _ x hx hfill
            rcases List.mem_cons.mp hx with rfl | hxr
            · exact h9
            · exact (ihr.mp (by simp [exceptIsOk, okE])) x hxr hfill
          · intro _
            simp [exceptIsOk, okE]
      · have hext : exceptIsOk
            (extract_entry (b.2.map fun i => row.getD i none)) = false := by
          revert h9
          rw [← hlen, ← extract_entry_ok_iff]
          cases exceptIsOk
            (extract_entry (b.2.map fun i => row.getD i none)) <;> simp
        obtain ⟨u, hu⟩ : ∃ u, extract_entry
            (b.2.map fun i => row.getD i none) = .error u := by
          cases hx : extract_entry (b.2.map fun i => row.getD i none) with
          | error u => exact ⟨u, rfl⟩
          | ok a =>
            rw [hx] at hext
            exact absurd hext (by simp [exceptIsOk, okE])
        rw [hu]
        constructor
        · intro habs
          exact absurd habs (by simp [exceptIsOk, okE])
        · intro hall
          exact absurd (hall b (by simp) (by rw [hbf, hft])) h9

/-- When the block loop succeeds, it appends exactly one entry per block
that passed the fill-in predicate. -/
theorem process_blocks_go_length (row : List Cell)
    (l : List (Str × List Nat)) :
    ∀ (first : Bool) (div : Str) (es : List AssessmentEntry) (dfin : Str),
      process_blocks_go row l first div = .ok (es, dfin) →
      es.length = (l.filter fun b => block_filled row b.2).length := by
  induction l with
  | nil =>
    intro first div es dfin h
    cases h
    rfl
  | cons b rest ih =>
    intro first div es dfin h
    cases hcell : ilocSeq row b.2 with
    | error u => simp [process_blocks_go, hcell] at h
    | ok cells =>
      simp only [process_blocks_go, hcell] at h
      have hbf : block_filled row b.2
          = minimum_responses_provided cells MINIMUM_REQUIRED_RESPONSES := by
        rw [block_filled, hcell]
      by_cases hf : minimum_responses_provided cells
          MINIMUM_REQUIRED_RESPONSES = false
      · rw [if_pos hf] at h
        rw [List.filter_cons_of_neg (by rw [hbf, hf]; simp)]
        exact ih first div es dfin h
      · rw [if_neg hf] at h
        have hft : minimum_responses_provided cells
            MINIMUM_REQUIRED_RESPONSES = true := by
          revert hf
          cases minimum_responses_provided cells
            MINIMUM_REQUIRED_RESPONSES <;> simp
        cases hx : extract_entry cells with
        | error u => simp [hx] at h
        | ok entry =>
          simp only [hx] at h
          cases hgo : process_blocks_go row rest false
              (if first then string_parse_division cells else div) with
          | error u => simp [hgo] at h
          | ok p =>
            obtain ⟨entries, divfin⟩ := p
            simp only [hgo] at h
            rw [List.filter_cons_of_pos (by rw [hbf, hft])]
            cases h
            simp only [List.length_cons]
            rw [ih false _ entries _ hgo]

/-- When no block passes the fill-in predicate (and every stored position
is in range), the block loop succeeds with no entries and leaves the
division accumulator untouched. -/
theorem process_blocks_go_all_skip (row : List Cell)
    (l : List (Str × List Nat)) :
    ∀ (first : Bool) (div : Str),
      (∀ b ∈ l, ∀ i ∈ b.2, i < row.length) →
      (∀ b ∈ l, block_filled row b.2 = false) →
      process_blocks_go row l first div = .ok ([], div) := by
  induction l with
  | nil => intro first div _ _; rfl
  | cons b rest ih =>
    intro first div hin hnone
    have hb : ∀ i ∈ b.2, i < row.length := hin b (by simp)
    have hcells := ilocSeq_ok_of_lt row b.2 hb
    have hbf := hnone b (by simp)
    rw [block_filled, hcells] at hbf
    simp only [process_blocks_go, hcells]
    rw [if_pos hbf]
    exact ih first div (fun x hx => hin x (by simp [hx]))
      (fun x hx => hnone x (by simp [hx]))

/-- Counterexample for C2: a discovered block with five recognized columns
(at least one, fewer than nine) whose cells are all present satisfies the
fill-in predicate, yet the block loop fails on it — the positional fetch at
role offset 8 is out of range, so the error branch IS reachable and the
row is not processed. -/
theorem partial_block_counterexample :
    (1 ≤ ([0, 1, 2, 3, 4] : List Nat).length
      ∧ ([0, 1, 2, 3, 4] : List Nat).length < 9)
    ∧ block_filled c2row [0, 1, 2, 3, 4] = true
    ∧ exceptIsOk (process_blocks c2row c2qcols) = false := by
  refine ⟨by decide, by decide, by decide⟩

/-- C2 (amended): a partial block still registers and is skipped safely
whenever it fails the fill-in predicate, but the Record Builder's block
loop survives a row exactly when every block that satisfies the fill-in
predicate spans at least nine columns; a narrower block that satisfies the
predicate makes the loop index out of range and fail.  (The stored
positions are assumed to fit the row, which holds for positions produced
by the locator from the table's own columns.) -/
theorem process_blocks_partial_spec :
    ∀ (row : List Cell) (qcols : List (Str × List Nat)),
      (∀ b ∈ qcols, ∀ i ∈ b.2, i < row.length) →
      (exceptIsOk (process_blocks row qcols) = true ↔
        ∀ b ∈ qcols, block_filled row b.2 = true → 9 ≤ b.2.length) := by
  intro row qcols hin
  exact process_blocks_go_ok_iff row qcols true [] hin

/-- Witness for C2: the amended criterion applied to a full nine-column
block — the loop succeeds. -/
theorem process_blocks_partial_spec_witness :
    exceptIsOk (process_blocks c2okRow c2okQcols) = true :=
  (process_blocks_partial_spec c2okRow c2okQcols (by decide)).mpr (by decide)

/-- Label lookup on a Series finds a cell for every present column (the
table being well-formed: as many cells as column names). -/
theorem zip_lookup_mem :
    ∀ (cols : List Str) (vals : List Cell), cols.length = vals.length →
      ∀ k : Str, k ∈ cols → ∃ c, (cols.zip vals).lookup k = some c := by
  intro cols
  induction cols with
  | nil =>
    intro vals _ k hk
    cases hk
  | cons a t ih =>
    intro vals hlen k hk
    cases vals with
    | nil => simp at hlen
    | cons v vs =>
      by_cases hak : k = a
      · subst hak
        exact ⟨v, by simp [List.lookup]⟩
      · have hkt : k ∈ t := by
          rcases List.mem_cons.mp hk with h | h
          · exact absurd h hak
          · exact h
        have hka : (k == a) = false := beq_eq_false_iff_ne.mpr hak
        obtain ⟨c, hc⟩ := ih vs (by simpa using hlen) k hkt
        refine ⟨c, ?_⟩
        simp only [List.zip_cons_cons, List.lookup, hka]
        exact hc

/-- Label lookup on a Series misses every absent column. -/
theorem zip_lookup_not_mem :
    ∀ (cols : List Str) (vals : List Cell) (k : Str), k ∉ cols →
      (cols.zip vals).lookup k = none := by
  intro cols
  induction cols with
  | nil =>
    intro vals k _
    rfl
  | cons a t ih =>
    intro vals k hk
    cases vals with
    | nil => rfl
    | cons v vs =>
      have hka : (k == a) = false :=
        beq_eq_false_iff_ne.mpr fun h => hk (by simp [h])
      simp only [List.zip_cons_cons, List.lookup, hka]
      exact ih vs k fun h => hk (by simp [h])

/-- C6: when the Student ID column (expected name Q4) is structurally
absent from the table, the row loop aborts with the diagnostic that names
Student ID and the expected column Q4 (the student-name column Q1 being
present, it is read first without raising).  When the column is present
but a row's ID cell is missing, the build succeeds and that record's ID is
the fallback placeholder. -/
theorem missing_studentID_aborts :
    (∀ (header : List Cell) (qcols : List (Str × List Nat)) (r : Row),
        r.cols.length = r.vals.length →
        COLNAME_PREFIX_STUDENTNAME ∈ r.cols →
        COLNAME_PREFIX_STUDENTID ∉ r.cols →
        build_one_request header qcols r = .error (.aborted MSG_STUDENTID))
    ∧ isSubstrOf (str "Student ID") MSG_STUDENTID = true
    ∧ isSubstrOf (str "Q4") MSG_STUDENTID = true
    ∧ (okE (build_one_request c8header [] c6row)).map (fun q => q.ID)
        = some (str "None given") := by
  refine ⟨?_, by decide, by decide, by decide⟩
  intro header qcols r hlen hq1 hq4
  obtain ⟨c1, hc1⟩ := zip_lookup_mem r.cols r.vals hlen _ hq1
  have hc4 := zip_lookup_not_mem r.cols r.vals COLNAME_PREFIX_STUDENTID hq4
  have hscal : build_request_scalars header r
      = .error COLNAME_PREFIX_STUDENTID := by
    simp only [build_request_scalars, create_student_name, rowGet, hc1, hc4,
      exbind_ok, exbind_error, expure]
  simp only [build_one_request, hscal]
  rfl

/-- Witness for C6: a table with a Q1 column but no Q4 column aborts with
the Student ID diagnostic. -/
theorem missing_studentID_aborts_witness :
    build_one_request [] [] c6badRow = .error (.aborted MSG_STUDENTID) :=
  missing_studentID_aborts.1 [] [] c6badRow (by decide) (by decide)
    (by decide)

/-- The run emits one record per data row when it succeeds: nothing is
filtered out and nothing extra is appended. -/
theorem build_all_length (header : List Cell) (qcols : List (Str × List Nat))
    (cols : List Str) :
    ∀ (rows : List (List Cell)) (reqs : List StudentRequest),
      build_all header qcols cols rows = .ok reqs →
      reqs.length = rows.length := by
  intro rows
  induction rows with
  | nil =>
    intro reqs h
    cases h
    rfl
  | cons vals rest ih =>
    intro reqs h
    cases hb : build_one_request header qcols ⟨cols, vals⟩ with
    | error e => simp [build_all, hb] at h
    | ok req =>
      simp only [build_all, hb] at h
      cases hr : build_all header qcols cols rest with
      | error e => simp [hr] at h
      | ok reqs2 =>
        simp only [hr] at h
        cases h
        simp [ih reqs2 hr]

/-- C8: (i) when a row is processed to completion, its record carries
exactly one assessment entry per discovered block whose cells satisfy the
fill-in predicate for that row; (ii) a successful run emits exactly one
record per data row, so a record with zero assessments is still appended;
(iii) a row whose scalar fields read fine and for which no block passes
the predicate finishes with an empty assessment list and is not an
error. -/
theorem build_requests_invariant :
    (∀ (header : List Cell) (qcols : List (Str × List Nat)) (r : Row),
        exceptIsOk (build_one_request header qcols r) = true →
        (okE (build_one_request header qcols r)).map
            (fun q => q.asm_codes.length)
          = some (countFilled qcols r.vals))
    ∧ (∀ t : Table,
        exceptIsOk (build_student_requests t) = true →
        (okE (build_student_requests t)).map List.length
          = some (t.rows.length - 1))
    ∧ (∀ (header : List Cell) (qcols : List (Str × List Nat)) (r : Row),
        exceptIsOk (build_request_scalars header r) = true →
        (∀ b ∈ qcols, ∀ i ∈ b.2, i < r.vals.length) →
        countFilled qcols r.vals = 0 →
        (okE (build_one_request header qcols r)).map (fun q => q.asm_codes)
          = some []) := by
  refine ⟨?_, ?_, ?_⟩
  · intro header qcols r hok
    cases hscal : build_request_scalars header r with
    | error k =>
      simp only [build_one_request, hscal] at hok
      cases hmsg : COLUMN_KEY_ERROR_MESSAGES.lookup k <;>
        simp [hmsg, exceptIsOk, okE] at hok
    | ok s =>
      cases hproc : process_blocks r.vals qcols with
      | error u =>
        simp [build_one_request, hscal, hproc, exceptIsOk, okE] at hok
      | ok p =>
        obtain ⟨entries, division⟩ := p
        simp only [build_one_request, hscal, hproc, okE, Option.map]
        simp only [List.length_map]
        simp only [process_blocks] at hproc
        rw [process_blocks_go_length r.vals qcols true [] entries division
          hproc]
        rfl
  · intro t hok
    obtain ⟨cols, rows⟩ := t
    cases rows with
    | nil => rfl
    | cons header rest =>
      simp only [build_student_requests] at hok ⊢
      obtain ⟨reqs, hreqs⟩ := exists_ok_of_isOk hok
      rw [hreqs]
      simp only [okE, Option.map]
      rw [build_all_length _ _ _ rest reqs hreqs]
      simp
  · intro header qcols r hscalok hin hcount
    obtain ⟨s, hs⟩ := exists_ok_of_isOk hscalok
    have hnone : ∀ b ∈ qcols, block_filled r.vals b.2 = false := by
      have hfil := List.length_eq_zero.mp hcount
      intro b hb
      by_contra hbf
      have hbt : block_filled r.vals b.2 = true := by
        revert hbf
        cases block_filled r.vals b.2 <;> simp
      have hmem : b ∈ qcols.filter fun b => block_filled r.vals b.2 :=
        List.mem_filter.mpr ⟨hb, hbt⟩
      rw [hfil] at hmem
      cases hmem
    have hskip := process_blocks_go_all_skip r.vals qcols true [] hin hnone
    simp only [build_one_request, hs]
    simp only [process_blocks, hskip]
    simp [okE]

/-- Witness for C8: a complete row with one discovered block pointing at a
missing cell — the block fails the predicate, the build succeeds, and the
record carries zero assessments (clause (i) and clause (iii) applied at
the same input). -/
theorem build_requests_invariant_witness :
    (okE (build_one_request c8header c8qcols c6row)).map
        (fun q => q.asm_codes.length)
      = some (countFilled c8qcols c6row.vals)
    ∧ (okE (build_one_request c8header c8qcols c6row)).map
        (fun q => q.asm_codes) = some [] :=
  ⟨build_requests_invariant.1 c8header c8qcols c6row (by decide),
   build_requests_invariant.2.2 c8header c8qcols c6row (by decide)
     (by decide) (by decide)⟩

/-- Counterexample for C9: the claim lists the per-assessment resubmission
dates among the output row's newline-joined multi-valued fields, but the
projection never emits them — for a record whose two resubmission dates
are distinctive strings, no output column holds their newline-join (the
`resubdates` list the source builds is absent from its `columns` dict). -/
theorem resubdates_not_emitted :
    c9req.asm_resubdate = [str "RDATE-A", str "RDATE-B"]
    ∧ ((requests_to_spreadsheet [c9req]).all fun col =>
        !(col.2 == [joinNL c9req.asm_resubdate])) = true := by
  refine ⟨rfl, by decide⟩

/-- C9 (amended): the projection emits exactly one output row per record,
its column list is exactly the fixed thirty-two columns (so there is no
resubmission-dates column), and each multi-valued field present in the
output — unit codes, assessment names, resubmission flags, other info and
submission statuses — is the newline-join of the record's per-assessment
values in list order; in particular a record with two assessment entries
yields a unit-code cell of the first code, a newline, then the second
code. -/
theorem requests_to_spreadsheet_spec :
    ∀ requests : List StudentRequest,
      ((requests_to_spreadsheet requests).map fun col => col.1)
        = outputColumnNames
      ∧ ((requests_to_spreadsheet requests).all fun col =>
          col.2.length == requests.length) = true
      ∧ (requests_to_spreadsheet requests).lookup (str "Unit Code")
          = some (requests.map fun r => joinNL r.asm_codes)
      ∧ (requests_to_spreadsheet requests).lookup
            (str "Assessment name and submission date")
          = some (requests.map fun r => joinNL r.asm_names)
      ∧ (requests_to_spreadsheet requests).lookup
            (str "Is this a resubmission (including date)?")
          = some (requests.map fun r => joinNL r.asm_is_resub)
      ∧ (requests_to_spreadsheet requests).lookup
            (str "Other Assessment Info.")
          = some (requests.map fun r => joinNL r.other_asm)
      ∧ (requests_to_spreadsheet requests).lookup (str "Submission Status")
          = some (requests.map fun r => joinNL r.asm_resubstatus)
      ∧ (requests_to_spreadsheet [c9req]).lookup (str "Unit Code")
          = some [str "ABCD1" ++ str "\n" ++ str "EFGH2"] := by
  intro requests
  refine ⟨rfl, ?_, rfl, rfl, rfl, rfl, rfl, by decide⟩
  simp [requests_to_spreadsheet, List.all, List.length_map]
